import Mathlib

/-!
Shallow embedding of the buzzer server (src/server.py, class BuzzerServer).

Connections are identified by natural numbers.  The Python dict
`self.clients` is modelled as an insertion-ordered association list
(Python dicts preserve insertion order, and re-assignment to an existing
key keeps its position).  Timestamps (`datetime.now()`) are modelled as
natural numbers supplied by the caller.  Outbound `websocket.send` calls
are modelled by returning a list of (recipient, message) pairs.
-/

namespace Buzzer

/-- One entry of `self.buzz_order` (server.py lines 89-93). -/
structure BuzzEntry where
  team_name : String
  buzz_time : Nat
  order : Nat
deriving DecidableEq, Repr

/-- The per-connection record stored in `self.clients` (server.py lines 36-39
and 57-63): either an admin record or a buzzer record. -/
inductive ClientInfo where
  | admin (connected_at : Nat)
  | buzzer (team_name : String) (has_buzzed : Bool) (buzz_time : Option Nat) (connected_at : Nat)
deriving DecidableEq, Repr

/-- The team name of a buzzer record, `none` for admin records. -/
def ClientInfo.nameOf : ClientInfo → Option String
  | .admin _ => none
  | .buzzer t _ _ _ => some t

/-- Whether the record has `type == buzzer`. -/
def ClientInfo.isBuzzerRec : ClientInfo → Bool
  | .admin _ => false
  | .buzzer _ _ _ _ => true

/-- Whether the record has `type == admin`. -/
def ClientInfo.isAdminRec : ClientInfo → Bool
  | .admin _ => true
  | .buzzer _ _ _ _ => false

/-- The `has_buzzed` flag of a record (false for admin records). -/
def ClientInfo.hasBuzzedRec : ClientInfo → Bool
  | .admin _ => false
  | .buzzer _ hb _ _ => hb

/-- The `buzz_time` of a record (none for admin records). -/
def ClientInfo.buzzTimeRec : ClientInfo → Option Nat
  | .admin _ => none
  | .buzzer _ _ bt _ => bt

/-- The mutable server state of `BuzzerServer.__init__` (server.py lines 24-28):
`clients`, `buzzers_locked`, `buzz_order`, `admin_clients`. -/
structure ServerState where
  clients : List (Nat × ClientInfo)
  buzzers_locked : Bool
  buzz_order : List BuzzEntry
  admin_clients : List Nat
deriving DecidableEq, Repr

/-- Initial state: no clients, locked, empty log, no admins. -/
def initState : ServerState := ⟨[], true, [], []⟩

/-- The role-specific team snapshot sent to admins (server.py lines 145-152). -/
structure TeamView where
  team_name : String
  has_buzzed : Bool
  buzz_time : Option Nat
deriving DecidableEq, Repr

/-- Outbound messages produced by the server (server.py: the payloads passed
to `websocket.send`). -/
inductive OutMsg where
  | registration_rejected (reason : String) (message : String)
  | buzz_rejected (reason : String)
  | state_update_admin (buzzers_locked : Bool) (buzz_order : List BuzzEntry) (teams : List TeamView)
  | state_update_buzzer (buzzers_locked : Bool) (has_buzzed : Bool) (buzz_order : List BuzzEntry)
deriving DecidableEq, Repr

/-- Python dict assignment `self.clients[ws] = v`: overwrite in place if the
key is present (dicts keep the original position), else append. -/
def updList (l : List (Nat × ClientInfo)) (k : Nat) (v : ClientInfo) : List (Nat × ClientInfo) :=
  if (l.lookup k).isSome then
    l.map (fun p => if p.1 == k then (k, v) else p)
  else
    l ++ [(k, v)]

/-- Python `del self.clients[ws]`. -/
def delKey (l : List (Nat × ClientInfo)) (k : Nat) : List (Nat × ClientInfo) :=
  l.filter (fun p => !(p.1 == k))

/-- Python `self.admin_clients.add(ws)` (a set; membership-checked append). -/
def addAdminSet (l : List Nat) (ws : Nat) : List Nat :=
  if ws ∈ l then l else l ++ [ws]

/-- The list comprehension of existing buzzer team names
(server.py line 45). -/
def existingTeams (s : ServerState) : List String :=
  s.clients.filterMap (fun p => p.2.nameOf)

/-- `len([c for c in self.clients.values() if c.get("type") == "buzzer"])`
(server.py line 42). -/
def buzzerCount (s : ServerState) : Nat :=
  (s.clients.filter (fun p => p.2.isBuzzerRec)).length

/-- The `teams` list of the admin state snapshot (server.py lines 145-152). -/
def teamViews (s : ServerState) : List TeamView :=
  s.clients.filterMap (fun p =>
    match p.2 with
    | .buzzer t hb bt _ => some ⟨t, hb, bt⟩
    | .admin _ => none)

/-- `BuzzerServer.send_state_update` (server.py lines 133-163): look the
client up; silently do nothing if unknown; otherwise send the role-specific
snapshot to that client. -/
def send_state_update (s : ServerState) (ws : Nat) : List (Nat × OutMsg) :=
  match s.clients.lookup ws with
  | none => []
  | some (.admin _) =>
      [(ws, .state_update_admin s.buzzers_locked s.buzz_order (teamViews s))]
  | some (.buzzer _ hb _ _) =>
      [(ws, .state_update_buzzer s.buzzers_locked hb s.buzz_order)]

/-- `BuzzerServer.broadcast_state_update` (server.py lines 165-183), in the
failure-free case: send the state snapshot to every client in dict order. -/
def broadcast_state_update (s : ServerState) : List (Nat × OutMsg) :=
  if s.clients.isEmpty then []
  else (s.clients.map Prod.fst).flatMap (send_state_update s)

/-- The duplicate-name rejection text (server.py line 52). -/
def dupMsg (tn : String) : String :=
  "Team name \"" ++ tn ++ "\" is already taken. Please choose a different name."

/-- `BuzzerServer.register_client` (server.py lines 30-67).  `now` models
`datetime.now()`. -/
def register_client (s : ServerState) (ws : Nat) (is_admin : Bool)
    (team_name : Option String) (now : Nat) : ServerState × List (Nat × OutMsg) :=
  if is_admin then
    let s1 : ServerState :=
      { s with admin_clients := addAdminSet s.admin_clients ws,
               clients := updList s.clients ws (.admin now) }
    (s1, send_state_update s1 ws)
  else
    let tn := team_name.getD ("Team " ++ toString (buzzerCount s + 1))
    if tn ∈ existingTeams s then
      (s, [(ws, .registration_rejected "duplicate_name" (dupMsg tn))])
    else
      let s1 : ServerState :=
        { s with clients := updList s.clients ws (.buzzer tn false none now) }
      (s1, send_state_update s1 ws)

/-- `BuzzerServer.handle_buzz` (server.py lines 69-98). -/
def handle_buzz (s : ServerState) (ws : Nat) (now : Nat) :
    ServerState × List (Nat × OutMsg) :=
  match s.clients.lookup ws with
  | none => (s, [])
  | some (.admin _) => (s, [])
  | some (.buzzer t hb _ ca) =>
    if s.buzzers_locked || hb then
      (s, [(ws, .buzz_rejected (if s.buzzers_locked then "locked" else "already_buzzed"))])
    else
      let s1 : ServerState :=
        { s with clients := updList s.clients ws (.buzzer t true (some now) ca),
                 buzz_order := s.buzz_order ++ [⟨t, now, s.buzz_order.length + 1⟩] }
      (s1, broadcast_state_update s1)

/-- `BuzzerServer.reset_buzzers` (server.py lines 123-131): clear every
buzzer's `has_buzzed`/`buzz_time`, empty `buzz_order`, broadcast. -/
def reset_buzzers (s : ServerState) : ServerState × List (Nat × OutMsg) :=
  let s1 : ServerState :=
    { s with
      clients := s.clients.map (fun p =>
        match p.2 with
        | .buzzer t _ _ ca => (p.1, ClientInfo.buzzer t false none ca)
        | .admin ca => (p.1, ClientInfo.admin ca)),
      buzz_order := [] }
  (s1, broadcast_state_update s1)

/-- `BuzzerServer.handle_admin_command` (server.py lines 100-121). -/
def handle_admin_command (s : ServerState) (ws : Nat) (command : Option String) :
    ServerState × List (Nat × OutMsg) :=
  if ws ∈ s.admin_clients then
    if command = some "reset" then reset_buzzers s
    else if command = some "lock" then reset_buzzers { s with buzzers_locked := true }
    else if command = some "unlock" then
      let s1 : ServerState := { s with buzzers_locked := false }
      (s1, broadcast_state_update s1)
    else (s, [])
  else (s, [])

/-- `BuzzerServer.handle_client_disconnect` (server.py lines 205-216). -/
def handle_client_disconnect (s : ServerState) (ws : Nat) :
    ServerState × List (Nat × OutMsg) :=
  match s.clients.lookup ws with
  | none => (s, [])
  | some c =>
    let s1 : ServerState :=
      { s with
        admin_clients :=
          if c.isAdminRec then s.admin_clients.filter (fun x => !(x == ws))
          else s.admin_clients,
        clients := delKey s.clients ws }
    (s1, broadcast_state_update s1)

/-- Events driving the session: the inbound transitions dispatched by
`handle_client_message` plus connection disconnects. -/
inductive Event where
  | register (ws : Nat) (is_admin : Bool) (team_name : Option String) (now : Nat)
  | buzz (ws : Nat) (now : Nat)
  | adminCmd (ws : Nat) (command : Option String)
  | disconnect (ws : Nat)
deriving DecidableEq, Repr

/-- One transition of the session: dispatch an event to its handler. -/
def step (s : ServerState) (e : Event) : ServerState × List (Nat × OutMsg) :=
  match e with
  | .register ws ia tn now => register_client s ws ia tn now
  | .buzz ws now => handle_buzz s ws now
  | .adminCmd ws c => handle_admin_command s ws c
  | .disconnect ws => handle_client_disconnect s ws

/-- Run a sequence of events, discarding the outbound messages. -/
def runEvents (s : ServerState) : List Event → ServerState
  | [] => s
  | e :: tr => runEvents (step s e).1 tr

/-- Whether an event clears the buzz log: an admin `reset` or `lock`. -/
def clearEvent (s : ServerState) (e : Event) : Bool :=
  match e with
  | .adminCmd ws c =>
      decide (ws ∈ s.admin_clients) && (c == some "reset" || c == some "lock")
  | _ => false

/-- Whether an event is an accepted buzz, and from which team at what time:
the caller is a registered buzzer, the session is unlocked, and the caller
has not buzzed yet. -/
def acceptEvent (s : ServerState) (e : Event) : Option (String × Nat) :=
  match e with
  | .buzz ws now =>
    match s.clients.lookup ws with
    | some (.buzzer t hb _ _) =>
        if !s.buzzers_locked && !hb then some (t, now) else none
    | _ => none
  | _ => none

/-- The acceptance-order record of a trace: the (team, time) pairs of
accepted buzzes since the last clearing event, in acceptance order. -/
def specLog : ServerState → List Event → List (String × Nat) → List (String × Nat)
  | _, [], acc => acc
  | s, e :: tr, acc =>
    let acc1 :=
      if clearEvent s e then []
      else
        match acceptEvent s e with
        | some p => acc ++ [p]
        | none => acc
    specLog (step s e).1 tr acc1

/-- A trace contains no `reset` and no `lock` admin command. -/
def noResetLock (tr : List Event) : Bool :=
  tr.all (fun e =>
    match e with
    | .adminCmd _ c => !(c == some "reset" || c == some "lock")
    | _ => true)

/-- Head condition of `okC8`: the event is not a disconnect, not a reset or
lock command, and not a register message from an already-registered
connection. -/
def okEventC8 (s : ServerState) (e : Event) : Bool :=
  match e with
  | .disconnect _ => false
  | .register ws _ _ _ => !(s.clients.lookup ws).isSome
  | .adminCmd _ c => !(c == some "reset" || c == some "lock")
  | .buzz _ _ => true

/-- Traces with no reset, no lock, no disconnect, and no register message
from an already-registered connection. -/
def okC8 : ServerState → List Event → Bool
  | _, [] => true
  | s, e :: tr => okEventC8 s e && okC8 (step s e).1 tr

/-- The inductive invariant behind the no-duplicate-teams property: client
keys are distinct, registered buzzer names are distinct, logged team names
are distinct, and every logged team name has a currently-registered holder
whose `has_buzzed` is true. -/
def InvC8 (s : ServerState) : Prop :=
  (s.clients.map Prod.fst).Nodup ∧
  (s.clients.filterMap (fun p => p.2.nameOf)).Nodup ∧
  (s.buzz_order.map (fun b => b.team_name)).Nodup ∧
  ∀ t ∈ s.buzz_order.map (fun b => b.team_name),
    ∃ ws bt ca, (ws, ClientInfo.buzzer t true bt ca) ∈ s.clients

/-! ### Exception-aware model for the message router

`websocket.send` can raise (for example when the peer has closed).  The
functions below thread an explicit failure predicate `fail : Nat → Bool`
(whether sending to a given connection raises) and a Boolean telling
whether an exception propagated out of the handler.  `broadcast_state_update`
catches each per-connection failure and disconnects that client afterwards
(server.py lines 174-183); the cleanup disconnects re-broadcast, so the
recursion is fuelled by the number of clients, which strictly bounds its
depth. -/

/-- A direct `send_state_update` call under the failure model: no send is
attempted for an unknown client; otherwise the send raises iff `fail ws`. -/
def send_state_updateE (fail : Nat → Bool) (s : ServerState) (ws : Nat) :
    List (Nat × OutMsg) × Bool :=
  match s.clients.lookup ws with
  | none => ([], false)
  | some _ => if fail ws then ([], true) else (send_state_update s ws, false)

/-- `handle_client_disconnect` given a broadcast function `bc`. -/
def disconnectWith (bc : ServerState → ServerState × List (Nat × OutMsg))
    (s : ServerState) (ws : Nat) : ServerState × List (Nat × OutMsg) :=
  match s.clients.lookup ws with
  | none => (s, [])
  | some c =>
    let s1 : ServerState :=
      { s with
        admin_clients :=
          if c.isAdminRec then s.admin_clients.filter (fun x => !(x == ws))
          else s.admin_clients,
        clients := delKey s.clients ws }
    bc s1

/-- The cleanup loop at the end of `broadcast_state_update` (server.py
lines 181-183): disconnect each failed client in turn. -/
def cleanupWith (bc : ServerState → ServerState × List (Nat × OutMsg)) :
    ServerState → List Nat → ServerState × List (Nat × OutMsg)
  | s, [] => (s, [])
  | s, w :: ws =>
    let r1 := disconnectWith bc s w
    let r2 := cleanupWith bc r1.1 ws
    (r2.1, r1.2 ++ r2.2)

/-- `broadcast_state_update` under the failure model: send to every client,
collecting the clients whose send raised, then disconnect them (each
disconnect broadcasting again).  The fuel bounds the disconnect nesting
depth; callers pass one more than the client count, which suffices since
every nested broadcast follows the removal of one client. -/
def broadcastE (fail : Nat → Bool) : Nat → ServerState → ServerState × List (Nat × OutMsg)
  | 0, s => (s, [])
  | f + 1, s =>
    if s.clients.isEmpty then (s, [])
    else
      let keys := s.clients.map Prod.fst
      let ms := keys.foldl (fun acc w => acc ++ (if fail w then [] else send_state_update s w)) []
      let failed := keys.filter fail
      let r := cleanupWith (fun st => broadcastE fail f st) s failed
      (r.1, ms ++ r.2)

/-- `register_client` under the failure model.  The duplicate-name rejection
send and the final `send_state_update` are direct sends and may raise; in
the latter case the freshly written record is already committed. -/
def register_clientE (fail : Nat → Bool) (s : ServerState) (ws : Nat)
    (is_admin : Bool) (team_name : Option String) (now : Nat) :
    ServerState × List (Nat × OutMsg) × Bool :=
  if is_admin then
    let s1 : ServerState :=
      { s with admin_clients := addAdminSet s.admin_clients ws,
               clients := updList s.clients ws (.admin now) }
    let r := send_state_updateE fail s1 ws
    (s1, r.1, r.2)
  else
    let tn := team_name.getD ("Team " ++ toString (buzzerCount s + 1))
    if tn ∈ existingTeams s then
      if fail ws then (s, [], true)
      else (s, [(ws, .registration_rejected "duplicate_name" (dupMsg tn))], false)
    else
      let s1 : ServerState :=
        { s with clients := updList s.clients ws (.buzzer tn false none now) }
      let r := send_state_updateE fail s1 ws
      (s1, r.1, r.2)

/-- `handle_buzz` under the failure model: the rejection send may raise; the
accepted path broadcasts (which never raises). -/
def handle_buzzE (fail : Nat → Bool) (s : ServerState) (ws : Nat) (now : Nat) :
    ServerState × List (Nat × OutMsg) × Bool :=
  match s.clients.lookup ws with
  | none => (s, [], false)
  | some (.admin _) => (s, [], false)
  | some (.buzzer t hb _ ca) =>
    if s.buzzers_locked || hb then
      if fail ws then (s, [], true)
      else (s, [(ws, .buzz_rejected (if s.buzzers_locked then "locked" else "already_buzzed"))], false)
    else
      let s1 : ServerState :=
        { s with clients := updList s.clients ws (.buzzer t true (some now) ca),
                 buzz_order := s.buzz_order ++ [⟨t, now, s.buzz_order.length + 1⟩] }
      let r := broadcastE fail (s1.clients.length + 1) s1
      (r.1, r.2, false)

/-- `reset_buzzers` under the failure model. -/
def reset_buzzersE (fail : Nat → Bool) (s : ServerState) :
    ServerState × List (Nat × OutMsg) :=
  let s1 : ServerState :=
    { s with
      clients := s.clients.map (fun p =>
        match p.2 with
        | .buzzer t _ _ ca => (p.1, ClientInfo.buzzer t false none ca)
        | .admin ca => (p.1, ClientInfo.admin ca)),
      buzz_order := [] }
  broadcastE fail (s1.clients.length + 1) s1

/-- `handle_admin_command` under the failure model: its only sends happen
inside broadcasts, which never raise. -/
def handle_admin_commandE (fail : Nat → Bool) (s : ServerState) (ws : Nat)
    (command : Option String) : ServerState × List (Nat × OutMsg) × Bool :=
  if ws ∈ s.admin_clients then
    if command = some "reset" then
      let r := reset_buzzersE fail s
      (r.1, r.2, false)
    else if command = some "lock" then
      let r := reset_buzzersE fail { s with buzzers_locked := true }
      (r.1, r.2, false)
    else if command = some "unlock" then
      let s1 : ServerState := { s with buzzers_locked := false }
      let r := broadcastE fail (s1.clients.length + 1) s1
      (r.1, r.2, false)
    else (s, [], false)
  else (s, [], false)

/-- A decoded inbound message as dispatched by `handle_client_message`
(server.py lines 185-203): the three known types plus an unknown
discriminator.  `none` at the router models malformed JSON. -/
inductive InMsg where
  | register (is_admin : Bool) (team_name : Option String) (now : Nat)
  | buzz (now : Nat)
  | adminCmd (command : Option String)
  | unknown
deriving DecidableEq, Repr

/-- `BuzzerServer.handle_client_message` under the failure model: the router
boundary.  Malformed JSON (`none`) and unknown types are logged and
discarded; any exception out of a handler is caught here (the final Boolean
reports that a fault was raised and caught), the committed state is kept,
and nothing propagates to close the connection. -/
def handle_client_messageE (fail : Nat → Bool) (s : ServerState) (ws : Nat)
    (m : Option InMsg) : ServerState × List (Nat × OutMsg) × Bool :=
  match m with
  | none => (s, [], false)
  | some (.register ia tn now) => register_clientE fail s ws ia tn now
  | some (.buzz now) => handle_buzzE fail s ws now
  | some (.adminCmd c) => handle_admin_commandE fail s ws c
  | some .unknown => (s, [], false)

/-! ### Concrete inputs used by witnesses and counterexamples -/

/-- A demonstration state: one admin, one fresh buzzer, one buzzer that has
already buzzed. -/
def demoS : ServerState :=
  ⟨[(0, .admin 0), (1, .buzzer "Red" false none 1), (2, .buzzer "Blue" true (some 5) 2)],
   true, [⟨"Blue", 5, 1⟩], [0]⟩

/-- The counterexample trace for the duplicate-team property: "Red" buzzes,
disconnects, a new connection re-registers as "Red" and buzzes again, with
no reset and no lock in between. -/
def trC8 : List Event :=
  [.register 0 true none 0, .adminCmd 0 (some "unlock"),
   .register 1 false (some "Red") 1, .buzz 1 2, .disconnect 1,
   .register 2 false (some "Red") 3, .buzz 2 4]

/-- A well-behaved trace: two distinct teams register and buzz. -/
def trC8ok : List Event :=
  [.register 0 true none 0, .adminCmd 0 (some "unlock"),
   .register 1 false (some "Red") 1, .buzz 1 2,
   .register 2 false (some "Blue") 3, .buzz 2 4]

/-- A trace exercising the log-order property: buzzes, a reset, more buzzes. -/
def trC7 : List Event :=
  [.register 0 true none 0, .adminCmd 0 (some "unlock"),
   .register 1 false (some "Red") 1, .register 2 false (some "Blue") 2,
   .buzz 1 3, .buzz 2 4, .adminCmd 0 (some "reset"), .buzz 2 6, .buzz 1 7]

/-- A send-failure predicate that fails exactly for connection 1. -/
def failOn1 : Nat → Bool := fun w => w == 1

/-- A demonstration state like `demoS` but with the session unlocked. -/
def demoUnlocked : ServerState :=
  ⟨[(0, .admin 0), (1, .buzzer "Red" false none 1), (2, .buzzer "Blue" true (some 5) 2)],
   false, [⟨"Blue", 5, 1⟩], [0]⟩

/-! ### Association-list and broadcast lemmas -/

theorem lookup_isSome_of_mem_keys (l : List (Nat × ClientInfo)) (k : Nat)
    (h : k ∈ l.map Prod.fst) : (List.lookup k l).isSome := by
  rw [List.lookup_isSome_iff]
  obtain ⟨p, hp, hk⟩ := List.mem_map.mp h
  exact ⟨p, hp, by simp [hk]⟩

theorem mem_of_lookup_eq_some {l : List (Nat × ClientInfo)} {k : Nat} {v : ClientInfo}
    (h : List.lookup k l = some v) : (k, v) ∈ l := by
  obtain ⟨l₁, l₂, rfl, -⟩ := List.lookup_eq_some_iff.mp h
  simp

theorem not_mem_keys_of_lookup_eq_none {l : List (Nat × ClientInfo)} {k : Nat}
    (h : List.lookup k l = none) : k ∉ l.map Prod.fst := by
  intro hmem
  have := lookup_isSome_of_mem_keys l k hmem
  rw [h] at this
  simp at this

theorem lookup_cons_ne {a1 : Nat} {a2 : ClientInfo} {l : List (Nat × ClientInfo)}
    {k : Nat} (h : ¬k = a1) :
    List.lookup k ((a1, a2) :: l) = List.lookup k l := by
  have e : (k == a1) = false := by simpa using h
  simp [List.lookup_cons, e]

theorem lookup_map_replace_self (l : List (Nat × ClientInfo)) (k : Nat) (v : ClientInfo)
    (hs : (List.lookup k l).isSome) :
    List.lookup k (l.map (fun p => if p.1 == k then (k, v) else p)) = some v := by
  induction l with
  | nil => simp at hs
  | cons a l ih =>
    rcases a with ⟨a1, a2⟩
    by_cases hk : a1 = k
    · subst hk
      simp
    · have hk2 : ¬k = a1 := fun hh => hk hh.symm
      have hs2 : (List.lookup k l).isSome := by
        rw [lookup_cons_ne hk2] at hs
        exact hs
      have hmap : ((a1, a2).1 == k) = false := by simpa using hk
      simp only [List.map_cons, hmap, Bool.false_eq_true, if_false]
      rw [lookup_cons_ne hk2]
      exact ih hs2

theorem lookup_append_single_self (l : List (Nat × ClientInfo)) (k : Nat) (v : ClientInfo)
    (h : List.lookup k l = none) :
    List.lookup k (l ++ [(k, v)]) = some v := by
  induction l with
  | nil => simp
  | cons a l ih =>
    rcases a with ⟨a1, a2⟩
    by_cases hk2 : k = a1
    · subst hk2
      simp at h
    · have h2 : List.lookup k l = none := by
        rw [lookup_cons_ne hk2] at h
        exact h
      rw [List.cons_append, lookup_cons_ne hk2]
      exact ih h2

theorem lookup_updList_self (l : List (Nat × ClientInfo)) (k : Nat) (v : ClientInfo) :
    List.lookup k (updList l k v) = some v := by
  unfold updList
  by_cases hs : (List.lookup k l).isSome
  · simpa [hs] using lookup_map_replace_self l k v hs
  · have h0 : List.lookup k l = none := by
      rcases h : List.lookup k l with _ | w
      · rfl
      · rw [h] at hs; simp at hs
    simpa [hs] using lookup_append_single_self l k v h0

theorem lookup_map_replace_ne (l : List (Nat × ClientInfo)) (k k' : Nat) (v : ClientInfo)
    (h : k' ≠ k) :
    List.lookup k' (l.map (fun p => if p.1 == k then (k, v) else p)) = List.lookup k' l := by
  induction l with
  | nil => simp
  | cons a l ih =>
    rcases a with ⟨a1, a2⟩
    by_cases hk : a1 = k
    · subst hk
      have hmap : ((a1, a2).1 == a1) = true := by simp
      simp only [List.map_cons, hmap, if_true]
      rw [lookup_cons_ne h, lookup_cons_ne (fun hh => h (hh.trans rfl))]
      · exact ih
    · have hmap : ((a1, a2).1 == k) = false := by simpa using hk
      simp only [List.map_cons, hmap, Bool.false_eq_true, if_false]
      by_cases hk' : k' = a1
      · subst hk'
        simp
      · rw [lookup_cons_ne hk', lookup_cons_ne hk']
        exact ih

theorem lookup_append_single_ne (l : List (Nat × ClientInfo)) (k k' : Nat) (v : ClientInfo)
    (h : k' ≠ k) :
    List.lookup k' (l ++ [(k, v)]) = List.lookup k' l := by
  induction l with
  | nil =>
    have e : (k' == k) = false := by simpa using h
    simp [List.lookup_cons, e]
  | cons a l ih =>
    rcases a with ⟨a1, a2⟩
    by_cases hk' : k' = a1
    · subst hk'
      simp
    · rw [List.cons_append, lookup_cons_ne hk', lookup_cons_ne hk']
      exact ih

theorem lookup_updList_ne (l : List (Nat × ClientInfo)) (k k' : Nat) (v : ClientInfo)
    (h : k' ≠ k) : List.lookup k' (updList l k v) = List.lookup k' l := by
  unfold updList
  by_cases hs : (List.lookup k l).isSome
  · simpa [hs] using lookup_map_replace_ne l k k' v h
  · simpa [hs] using lookup_append_single_ne l k k' v h

theorem send_state_update_fst (s : ServerState) (ws : Nat) :
    (send_state_update s ws).map Prod.fst =
      if (List.lookup ws s.clients).isSome then [ws] else [] := by
  unfold send_state_update
  rcases h : List.lookup ws s.clients with _ | c
  · simp [h]
  · rcases c with ca | ⟨t, hb, bt, ca⟩ <;> simp [h]

theorem flatMap_send_fst (s : ServerState) (ks : List Nat)
    (h : ∀ w ∈ ks, (List.lookup w s.clients).isSome) :
    ((ks.flatMap (send_state_update s)).map Prod.fst) = ks := by
  induction ks with
  | nil => simp
  | cons w ks ih =>
    have hw : (List.lookup w s.clients).isSome := h w (List.mem_cons_self _ _)
    simp only [List.flatMap_cons, List.map_append, send_state_update_fst, hw, if_true]
    have := ih (fun x hx => h x (List.mem_cons_of_mem _ hx))
    simp [this]

theorem broadcast_fst (s : ServerState) :
    (broadcast_state_update s).map Prod.fst = s.clients.map Prod.fst := by
  unfold broadcast_state_update
  by_cases he : s.clients.isEmpty
  · rw [List.isEmpty_iff] at he
    simp [he]
  · simp only [he, Bool.false_eq_true, if_false]
    exact flatMap_send_fst s _ (fun w hw => lookup_isSome_of_mem_keys _ _ hw)

/-! ### Claim theorems -/

/-- C1: for a connection registered as a Buzzer with `has_buzzed = false`,
when the session is unlocked, a buzz sets `has_buzzed` to true and
`buzz_time` to the current time, appends the entry
(team_name, buzz_time, order = len(buzz_log)+1) to the buzz log, and
broadcasts the state to every connected client. -/
theorem C1_buzz_accept (s : ServerState) (ws now : Nat) (t : String)
    (bt : Option Nat) (ca : Nat)
    (hc : List.lookup ws s.clients = some (.buzzer t false bt ca))
    (hl : s.buzzers_locked = false) :
    List.lookup ws (handle_buzz s ws now).1.clients = some (.buzzer t true (some now) ca) ∧
    (handle_buzz s ws now).1.buzz_order =
      s.buzz_order ++ [⟨t, now, s.buzz_order.length + 1⟩] ∧
    (handle_buzz s ws now).2 = broadcast_state_update (handle_buzz s ws now).1 ∧
    (handle_buzz s ws now).2.map Prod.fst = (handle_buzz s ws now).1.clients.map Prod.fst := by
  unfold handle_buzz
  rw [hc]
  simp only [hl, Bool.false_or, Bool.or_false]
  refine ⟨?_, ?_, ?_, ?_⟩
  · simpa using lookup_updList_self s.clients ws (.buzzer t true (some now) ca)
  · simp
  · simp
  · simpa using broadcast_fst _

/-- Witness for C1 at a concrete unlocked state. -/
theorem C1_buzz_accept_witness :
    List.lookup 1 (handle_buzz demoUnlocked 1 9).1.clients =
      some (.buzzer "Red" true (some 9) 1) ∧
    (handle_buzz demoUnlocked 1 9).1.buzz_order =
      demoUnlocked.buzz_order ++ [⟨"Red", 9, demoUnlocked.buzz_order.length + 1⟩] ∧
    (handle_buzz demoUnlocked 1 9).2 = broadcast_state_update (handle_buzz demoUnlocked 1 9).1 ∧
    (handle_buzz demoUnlocked 1 9).2.map Prod.fst =
      (handle_buzz demoUnlocked 1 9).1.clients.map Prod.fst :=
  C1_buzz_accept demoUnlocked 1 9 "Red" none 1 (by decide) (by decide)

/-- C2: a buzz from a registered Buzzer while the session is locked is
answered, to the caller alone, with reason "locked" (also when the caller
has already buzzed); while unlocked, a caller who has already buzzed gets
reason "already_buzzed"; in both cases the state is unchanged and no
broadcast happens. -/
theorem C2_buzz_reject (s : ServerState) (ws now : Nat) (t : String) (hb : Bool)
    (bt : Option Nat) (ca : Nat)
    (hc : List.lookup ws s.clients = some (.buzzer t hb bt ca)) :
    (s.buzzers_locked = true →
      handle_buzz s ws now = (s, [(ws, .buzz_rejected "locked")])) ∧
    (s.buzzers_locked = false → hb = true →
      handle_buzz s ws now = (s, [(ws, .buzz_rejected "already_buzzed")])) := by
  constructor
  · intro hl
    unfold handle_buzz
    rw [hc]
    simp [hl]
  · intro hl hhb
    unfold handle_buzz
    rw [hc]
    simp [hl, hhb]

/-- Witness for C2: a locked-session rejection and an already-buzzed
rejection at concrete states. -/
theorem C2_buzz_reject_witness :
    handle_buzz demoS 1 9 = (demoS, [(1, .buzz_rejected "locked")]) ∧
    handle_buzz demoUnlocked 2 9 = (demoUnlocked, [(2, .buzz_rejected "already_buzzed")]) :=
  ⟨(C2_buzz_reject demoS 1 9 "Red" false none 1 (by decide)).1 (by decide),
   (C2_buzz_reject demoUnlocked 2 9 "Blue" true (some 5) 2 (by decide)).2 (by decide) (by decide)⟩

/-- C6: an admin_command from a connection that is not in the admin set
changes nothing and sends no reply. -/
theorem C6_non_admin_ignored (s : ServerState) (ws : Nat) (c : Option String)
    (h : ws ∉ s.admin_clients) :
    handle_admin_command s ws c = (s, []) := by
  unfold handle_admin_command
  simp [h]

/-- Witness for C6: a buzzer connection issuing a reset is ignored. -/
theorem C6_non_admin_ignored_witness :
    handle_admin_command demoS 1 (some "reset") = (demoS, []) :=
  C6_non_admin_ignored demoS 1 (some "reset") (by decide)

/-- C3: a lock command from a registered Admin leaves the session locked,
clears every Buzzer's `has_buzzed` and `buzz_time`, and empties the buzz
log, regardless of the prior state. -/
theorem C3_lock_clears (s : ServerState) (ws : Nat) (h : ws ∈ s.admin_clients) :
    (handle_admin_command s ws (some "lock")).1.buzzers_locked = true ∧
    (handle_admin_command s ws (some "lock")).1.buzz_order = [] ∧
    ∀ p ∈ (handle_admin_command s ws (some "lock")).1.clients,
      p.2.hasBuzzedRec = false ∧ p.2.buzzTimeRec = none := by
  unfold handle_admin_command reset_buzzers
  simp only [h, if_true, reduceCtorEq, Option.some.injEq, String.reduceEq, if_false]
  refine ⟨trivial, trivial, ?_⟩
  intro p hp
  simp only [List.mem_map] at hp
  obtain ⟨⟨k, c⟩, hq, rfl⟩ := hp
  cases c <;> simp [ClientInfo.hasBuzzedRec, ClientInfo.buzzTimeRec]

/-- Witness for C3 at a concrete state with a buzzed team. -/
theorem C3_lock_clears_witness :
    (handle_admin_command demoS 0 (some "lock")).1.buzzers_locked = true ∧
    (handle_admin_command demoS 0 (some "lock")).1.buzz_order = [] ∧
    ((2, ClientInfo.buzzer "Blue" false none 2).2.hasBuzzedRec = false ∧
      (2, ClientInfo.buzzer "Blue" false none 2).2.buzzTimeRec = none) :=
  ⟨(C3_lock_clears demoS 0 (by decide)).1,
   (C3_lock_clears demoS 0 (by decide)).2.1,
   (C3_lock_clears demoS 0 (by decide)).2.2 (2, ClientInfo.buzzer "Blue" false none 2)
     (by decide)⟩

/-- C4: a reset command from a registered Admin clears every Buzzer's
`has_buzzed` and `buzz_time` and empties the buzz log, but leaves the
locked flag exactly as it was. -/
theorem C4_reset_frame (s : ServerState) (ws : Nat) (h : ws ∈ s.admin_clients) :
    (handle_admin_command s ws (some "reset")).1.buzzers_locked = s.buzzers_locked ∧
    (handle_admin_command s ws (some "reset")).1.buzz_order = [] ∧
    ∀ p ∈ (handle_admin_command s ws (some "reset")).1.clients,
      p.2.hasBuzzedRec = false ∧ p.2.buzzTimeRec = none := by
  unfold handle_admin_command reset_buzzers
  simp only [h, if_true, Option.some.injEq, String.reduceEq, if_true, if_false]
  refine ⟨trivial, trivial, ?_⟩
  intro p hp
  simp only [List.mem_map] at hp
  obtain ⟨⟨k, c⟩, hq, rfl⟩ := hp
  cases c <;> simp [ClientInfo.hasBuzzedRec, ClientInfo.buzzTimeRec]

/-- Witness for C4: resetting the locked demo state keeps it locked. -/
theorem C4_reset_frame_witness :
    (handle_admin_command demoS 0 (some "reset")).1.buzzers_locked = demoS.buzzers_locked ∧
    (handle_admin_command demoS 0 (some "reset")).1.buzz_order = [] ∧
    ((2, ClientInfo.buzzer "Blue" false none 2).2.hasBuzzedRec = false ∧
      (2, ClientInfo.buzzer "Blue" false none 2).2.buzzTimeRec = none) :=
  ⟨(C4_reset_frame demoS 0 (by decide)).1,
   (C4_reset_frame demoS 0 (by decide)).2.1,
   (C4_reset_frame demoS 0 (by decide)).2.2 (2, ClientInfo.buzzer "Blue" false none 2)
     (by decide)⟩

/-- C5: registering a Buzzer under a team name held by a currently-registered
Buzzer is answered, to the caller alone, with a duplicate_name rejection and
mutates nothing; and once the sole holder of a name disconnects, a
registration under that name succeeds and creates the record. -/
theorem C5_dup_and_free (s : ServerState) (ws ws2 now2 : Nat) (tn : String)
    (hb : Bool) (bt : Option Nat) (ca : Nat)
    (hc : List.lookup ws s.clients = some (.buzzer tn hb bt ca))
    (huniq : ∀ p ∈ s.clients, p.2.nameOf = some tn → p.1 = ws) :
    (∀ s2 ws3 now3, tn ∈ existingTeams s2 →
      register_client s2 ws3 false (some tn) now3 =
        (s2, [(ws3, .registration_rejected "duplicate_name" (dupMsg tn))])) ∧
    List.lookup ws2
        (register_client (handle_client_disconnect s ws).1 ws2 false (some tn) now2).1.clients
      = some (.buzzer tn false none now2) := by
  constructor
  · intro s2 ws3 now3 hmem
    unfold register_client
    simp [hmem]
  · have hd : (handle_client_disconnect s ws).1 = { s with clients := delKey s.clients ws } := by
      unfold handle_client_disconnect
      rw [hc]
      simp [ClientInfo.isAdminRec]
    rw [hd]
    have hnot : tn ∉ existingTeams { s with clients := delKey s.clients ws } := by
      intro hmem
      unfold existingTeams at hmem
      obtain ⟨p, hp, hpn⟩ := List.mem_filterMap.mp hmem
      unfold delKey at hp
      obtain ⟨hps, hpk⟩ := List.mem_filter.mp hp
      have hpw := huniq p hps hpn
      rw [hpw] at hpk
      simp at hpk
    unfold register_client
    simp only [Bool.false_eq_true, if_false, Option.getD_some, hnot]
    simpa using lookup_updList_self _ ws2 (.buzzer tn false none now2)

/-- Witness for C5: "Blue" is taken in the demo state, and re-registering
"Red" after its holder disconnects succeeds. -/
theorem C5_dup_and_free_witness :
    register_client demoS 7 false (some "Red") 3 =
      (demoS, [(7, .registration_rejected "duplicate_name" (dupMsg "Red"))]) ∧
    List.lookup 9
        (register_client (handle_client_disconnect demoS 1).1 9 false (some "Red") 8).1.clients
      = some (.buzzer "Red" false none 8) :=
  ⟨(C5_dup_and_free demoS 1 9 8 "Red" false none 1 (by decide)
      (by decide)).1 demoS 7 3 (by decide),
   (C5_dup_and_free demoS 1 9 8 "Red" false none 1 (by decide)
      (by decide)).2⟩

/-! ### The buzz log along a trace (C7) -/

theorem step_buzz_order (s : ServerState) (e : Event) :
    (step s e).1.buzz_order =
      if clearEvent s e then []
      else
        match acceptEvent s e with
        | some p => s.buzz_order ++ [⟨p.1, p.2, s.buzz_order.length + 1⟩]
        | none => s.buzz_order := by
  cases e with
  | register ws ia tn now =>
    simp only [step, clearEvent, acceptEvent, Bool.false_eq_true, if_false]
    unfold register_client
    cases ia
    · simp only [Bool.false_eq_true, if_false]
      split <;> rfl
    · rfl
  | buzz ws now =>
    simp only [step, clearEvent, acceptEvent, Bool.false_eq_true, if_false]
    unfold handle_buzz
    cases h : List.lookup ws s.clients with
    | none => simp
    | some c =>
      cases c with
      | admin ca => simp
      | buzzer t hb bt ca =>
        by_cases hl : s.buzzers_locked
        · simp [hl]
        · by_cases hhb : hb
          · simp [hl, hhb]
          · simp [hl, hhb]
  | adminCmd ws c =>
    simp only [step, clearEvent, acceptEvent]
    unfold handle_admin_command reset_buzzers
    by_cases hm : ws ∈ s.admin_clients
    · by_cases hr : c = some "reset"
      · simp [hm, hr]
      · by_cases hlk : c = some "lock"
        · simp [hm, hr, hlk]
        · by_cases hu : c = some "unlock"
          · simp [hm, hr, hlk, hu]
          · simp [hm, hr, hlk, hu]
    · simp [hm]
  | disconnect ws =>
    simp only [step, clearEvent, acceptEvent, Bool.false_eq_true, if_false]
    unfold handle_client_disconnect
    cases h : List.lookup ws s.clients <;> simp

theorem specLog_runEvents (tr : List Event) : ∀ (s : ServerState) (acc : List (String × Nat)),
    s.buzz_order.map (fun b => (b.team_name, b.buzz_time)) = acc →
    s.buzz_order.map (fun b => b.order) = List.range' 1 s.buzz_order.length →
    (runEvents s tr).buzz_order.map (fun b => (b.team_name, b.buzz_time)) = specLog s tr acc ∧
    (runEvents s tr).buzz_order.map (fun b => b.order) =
      List.range' 1 (runEvents s tr).buzz_order.length := by
  induction tr with
  | nil =>
    intro s acc h1 h2
    exact ⟨h1, h2⟩
  | cons e tr ih =>
    intro s acc h1 h2
    apply ih
    · rw [step_buzz_order]
      by_cases hc : clearEvent s e
      · simp [specLog, hc]
      · simp only [hc, Bool.false_eq_true, if_false, specLog]
        cases ha : acceptEvent s e with
        | none => simpa [ha] using h1
        | some p => simp [ha, h1]
    · rw [step_buzz_order]
      by_cases hc : clearEvent s e
      · simp [hc]
      · simp only [hc, Bool.false_eq_true, if_false]
        cases ha : acceptEvent s e with
        | none => simpa using h2
        | some p =>
          simp only [List.map_append, List.map_cons, List.map_nil, List.length_append,
            List.length_cons, List.length_nil, Nat.zero_add, List.range'_concat, h2]
          simp [Nat.add_comm]

/-- C7: along every trace from the initial state, the buzz log records, in
order, exactly the (team, time) pairs of the buzzes accepted since the last
clearing event, and its order fields are exactly 1..N, 1-based and
contiguous. -/
theorem C7_log_order (tr : List Event) :
    (runEvents initState tr).buzz_order.map (fun b => (b.team_name, b.buzz_time)) =
      specLog initState tr [] ∧
    (runEvents initState tr).buzz_order.map (fun b => b.order) =
      List.range' 1 (runEvents initState tr).buzz_order.length :=
  specLog_runEvents tr initState [] (by simp [initState]) (by simp [initState])

/-! ### No duplicate teams in the log (C8) -/

theorem eq_of_keys_nodup_lookup {l : List (Nat × ClientInfo)} {k : Nat} {v : ClientInfo}
    (kn : (l.map Prod.fst).Nodup) (h : List.lookup k l = some v) :
    ∀ p ∈ l, p.1 = k → p = (k, v) := by
  induction l with
  | nil => simp
  | cons a l ih =>
    rcases a with ⟨a1, a2⟩
    intro p hp hpk
    simp only [List.map_cons, List.nodup_cons] at kn
    rcases List.mem_cons.mp hp with rfl | hpl
    · have ha1 : a1 = k := hpk
      subst ha1
      rw [List.lookup_cons_self] at h
      have hv : a2 = v := by injection h
      simp [hv]
    · by_cases hk : k = a1
      · subst hk
        have hmem : p.1 ∈ l.map Prod.fst := List.mem_map_of_mem Prod.fst hpl
        rw [hpk] at hmem
        exact absurd hmem kn.1
      · rw [lookup_cons_ne hk] at h
        exact ih kn.2 h p hpl hpk

theorem eq_of_names_nodup {l : List (Nat × ClientInfo)}
    (hn : (l.filterMap (fun p => p.2.nameOf)).Nodup)
    {a b : Nat × ClientInfo} {t : String} (ha : a ∈ l) (hb : b ∈ l)
    (hna : a.2.nameOf = some t) (hnb : b.2.nameOf = some t) : a = b := by
  induction l with
  | nil => simp at ha
  | cons c l ih =>
    rw [List.filterMap_cons] at hn
    cases hc : c.2.nameOf with
    | none =>
      rw [hc] at hn
      rcases List.mem_cons.mp ha with rfl | ha2
      · rw [hna] at hc; exact absurd hc (by simp)
      · rcases List.mem_cons.mp hb with rfl | hb2
        · rw [hnb] at hc; exact absurd hc (by simp)
        · exact ih hn ha2 hb2
    | some u =>
      rw [hc] at hn
      have hn1 : u ∉ l.filterMap (fun p => p.2.nameOf) := (List.nodup_cons.mp hn).1
      have hn2 := (List.nodup_cons.mp hn).2
      rcases List.mem_cons.mp ha with rfl | ha2
      · rcases List.mem_cons.mp hb with rfl | hb2
        · rfl
        · have hu : u = t := by rw [hna] at hc; exact (Option.some.injEq _ _ ▸ hc).symm ▸ rfl
          exact absurd (List.mem_filterMap.mpr ⟨b, hb2, by rw [hnb, hu]⟩) hn1
      · rcases List.mem_cons.mp hb with rfl | hb2
        · have hu : u = t := by rw [hnb] at hc; exact (Option.some.injEq _ _ ▸ hc).symm ▸ rfl
          exact absurd (List.mem_filterMap.mpr ⟨a, ha2, by rw [hna, hu]⟩) hn1
        · exact ih hn2 ha2 hb2

theorem keys_map_replace (l : List (Nat × ClientInfo)) (k : Nat) (v : ClientInfo) :
    ((l.map (fun p => if p.1 == k then (k, v) else p)).map Prod.fst) = l.map Prod.fst := by
  rw [List.map_map]
  apply List.map_congr_left
  intro p _
  by_cases h : p.1 = k
  · simp [h]
  · simp [h]

theorem names_map_replace (l : List (Nat × ClientInfo)) (k : Nat) (v v' : ClientInfo)
    (kn : (l.map Prod.fst).Nodup) (hl : List.lookup k l = some v)
    (hnm : ClientInfo.nameOf v' = ClientInfo.nameOf v) :
    ((l.map (fun p => if p.1 == k then (k, v') else p)).filterMap (fun p => p.2.nameOf)) =
      l.filterMap (fun p => p.2.nameOf) := by
  rw [List.filterMap_map]
  apply List.filterMap_congr
  intro p hp
  by_cases h : p.1 = k
  · have hpv := eq_of_keys_nodup_lookup kn hl p hp h
    simp [Function.comp, h, hpv, hnm]
  · simp [Function.comp, h]

theorem invC8_step (s : ServerState) (e : Event) (hI : InvC8 s)
    (he : okEventC8 s e = true) : InvC8 (step s e).1 := by
  obtain ⟨hKN, hBN, hLN, hHB⟩ := hI
  cases e with
  | disconnect ws => simp [okEventC8] at he
  | adminCmd ws c =>
    simp only [okEventC8, Bool.not_eq_true', Bool.or_eq_false_iff, beq_eq_false_iff_ne,
      ne_eq] at he
    simp only [step]
    unfold handle_admin_command
    by_cases hm : ws ∈ s.admin_clients
    · simp only [hm, if_true, he.1, he.2, if_false]
      by_cases hu : c = some "unlock"
      · simp only [hu, if_true]
        exact ⟨hKN, hBN, hLN, hHB⟩
      · simp only [hu, if_false]
        exact ⟨hKN, hBN, hLN, hHB⟩
    · simp only [hm, if_false]
      exact ⟨hKN, hBN, hLN, hHB⟩
  | register ws ia tn now =>
    have he2 : List.lookup ws s.clients = none := by
      rcases hcase : List.lookup ws s.clients with _ | w
      · rfl
      · simp [okEventC8, hcase] at he
    simp only [step]
    unfold register_client
    have hupd : ∀ v, updList s.clients ws v = s.clients ++ [(ws, v)] := by
      intro v
      unfold updList
      simp [he2]
    have hnok : ∀ x : ClientInfo, (ws, x) ∉ s.clients := fun x hx =>
      not_mem_keys_of_lookup_eq_none he2 (List.mem_map_of_mem Prod.fst hx)
    cases ia with
    | true =>
      simp only [if_true]
      refine ⟨?_, ?_, hLN, ?_⟩
      · rw [hupd]
        simp only [List.map_append, List.map_cons, List.map_nil]
        rw [List.nodup_append]
        exact ⟨hKN, List.nodup_singleton _,
          by simpa using hnok⟩
      · rw [hupd]
        simpa [ClientInfo.nameOf] using hBN
      · intro t ht
        obtain ⟨w, bt, ca, hmem⟩ := hHB t ht
        exact ⟨w, bt, ca, by rw [hupd]; exact List.mem_append_left _ hmem⟩
    | false =>
      simp only [Bool.false_eq_true, if_false]
      by_cases hdup : tn.getD ("Team " ++ toString (buzzerCount s + 1)) ∈ existingTeams s
      · simp only [hdup, if_true]
        exact ⟨hKN, hBN, hLN, hHB⟩
      · simp only [hdup, if_false]
        refine ⟨?_, ?_, hLN, ?_⟩
        · rw [hupd]
          simp only [List.map_append, List.map_cons, List.map_nil]
          rw [List.nodup_append]
          exact ⟨hKN, List.nodup_singleton _,
            by simpa using hnok⟩
        · rw [hupd]
          simp only [List.filterMap_append, List.filterMap_cons, List.filterMap_nil,
            ClientInfo.nameOf]
          rw [List.nodup_append]
          refine ⟨hBN, List.nodup_singleton _, ?_⟩
          simpa [existingTeams, List.disjoint_singleton] using hdup
        · intro t ht
          obtain ⟨w, bt, ca, hmem⟩ := hHB t ht
          exact ⟨w, bt, ca, by rw [hupd]; exact List.mem_append_left _ hmem⟩
  | buzz ws now =>
    simp only [step]
    unfold handle_buzz
    cases h : List.lookup ws s.clients with
    | none => exact ⟨hKN, hBN, hLN, hHB⟩
    | some c =>
      cases c with
      | admin ca => exact ⟨hKN, hBN, hLN, hHB⟩
      | buzzer t hb bt ca =>
        by_cases hl : s.buzzers_locked
        · simp only [hl, Bool.true_or, if_true]
          exact ⟨hKN, hBN, hLN, hHB⟩
        · by_cases hhb : hb
          · simp only [hl, hhb, Bool.or_true, if_true, Bool.false_eq_true, if_false]
            exact ⟨hKN, hBN, hLN, hHB⟩
          · have hlf : s.buzzers_locked = false := by simpa using hl
            have hhf : hb = false := by simpa using hhb
            simp only [hlf, hhf, Bool.or_self, Bool.false_eq_true, if_false]
            have hmap : updList s.clients ws (ClientInfo.buzzer t true (some now) ca) =
                s.clients.map
                  (fun p => if p.1 == ws then (ws, ClientInfo.buzzer t true (some now) ca) else p) := by
              unfold updList
              simp [h]
            have hmem0 : (ws, ClientInfo.buzzer t false bt ca) ∈ s.clients := by
              have := mem_of_lookup_eq_some (by rw [h, hhf] : List.lookup ws s.clients =
                some (ClientInfo.buzzer t false bt ca))
              exact this
            have htnew : t ∉ s.buzz_order.map (fun b => b.team_name) := by
              intro hmem
              obtain ⟨w2, bt2, ca2, hmem2⟩ := hHB t hmem
              have heq := @eq_of_names_nodup s.clients hBN
                (w2, ClientInfo.buzzer t true bt2 ca2) (ws, ClientInfo.buzzer t false bt ca) t
                hmem2 hmem0 (by simp [ClientInfo.nameOf]) (by simp [ClientInfo.nameOf])
              have hrec : ClientInfo.buzzer t true bt2 ca2 = ClientInfo.buzzer t false bt ca :=
                congrArg Prod.snd heq
              simp at hrec
            refine ⟨?_, ?_, ?_, ?_⟩
            · rw [hmap, keys_map_replace]
              exact hKN
            · rw [hmap, names_map_replace s.clients ws (ClientInfo.buzzer t hb bt ca)
                (ClientInfo.buzzer t true (some now) ca) hKN h (by simp [ClientInfo.nameOf])]
              exact hBN
            · simp only [List.map_append, List.map_cons, List.map_nil]
              rw [List.nodup_append]
              exact ⟨hLN, List.nodup_singleton _, by simpa [List.disjoint_singleton] using htnew⟩
            · intro t2 ht2
              simp only [List.map_append, List.map_cons, List.map_nil, List.mem_append,
                List.mem_cons, List.not_mem_nil, or_false] at ht2
              rcases ht2 with ht2 | rfl
              · obtain ⟨w2, bt2, ca2, hmem2⟩ := hHB t2 ht2
                have hw2 : w2 ≠ ws := by
                  intro hww
                  subst hww
                  have heq := eq_of_keys_nodup_lookup hKN
                    (by rw [h, hhf] : List.lookup w2 s.clients =
                      some (ClientInfo.buzzer t false bt ca))
                    (w2, ClientInfo.buzzer t2 true bt2 ca2) hmem2 rfl
                  have := congrArg Prod.snd heq
                  simp at this
                refine ⟨w2, bt2, ca2, ?_⟩
                rw [hmap]
                have := List.mem_map_of_mem
                  (fun p => if p.1 == ws then (ws, ClientInfo.buzzer t true (some now) ca) else p)
                  hmem2
                simpa [hw2] using this
              · refine ⟨ws, some now, ca, ?_⟩
                rw [hmap]
                have hmm := List.mem_map_of_mem
                  (fun p => if p.1 == ws then (ws, ClientInfo.buzzer t2 true (some now) ca) else p)
                  hmem0
                simpa using hmm

theorem invC8_run (tr : List Event) : ∀ s : ServerState,
    InvC8 s → okC8 s tr = true → InvC8 (runEvents s tr) := by
  induction tr with
  | nil =>
    intro s h _
    exact h
  | cons e tr ih =>
    intro s h hok
    rw [okC8, Bool.and_eq_true] at hok
    exact ih _ (invC8_step s e h hok.1) hok.2

/-- C8 counterexample: a trace of registrations, buzzes and a disconnect,
with no reset and no lock command, after which the team "Red" appears in
two entries of the buzz log. -/
theorem C8_counterexample :
    noResetLock trC8 = true ∧
    ((runEvents initState trC8).buzz_order.map (fun b => b.team_name)).count "Red" = 2 := by
  constructor
  · decide
  · decide

/-- C8 amended: for every sequence of events containing no reset, no lock,
no disconnect, and no register message from an already-registered
connection, no team name appears in more than one entry of the buzz log. -/
theorem C8_no_dup_teams (tr : List Event) (h : okC8 initState tr = true) :
    ((runEvents initState tr).buzz_order.map (fun b => b.team_name)).Nodup :=
  (invC8_run tr initState
    ⟨by simp [initState], by simp [initState], by simp [initState], by simp [initState]⟩
    h).2.2.1

/-- Witness for the amended C8 on a concrete well-behaved trace. -/
theorem C8_no_dup_teams_witness :
    okC8 initState trC8ok = true ∧
    ((runEvents initState trC8ok).buzz_order.map (fun b => b.team_name)).Nodup :=
  ⟨by decide, C8_no_dup_teams trC8ok (by decide)⟩

/-! ### Router error handling (C9) -/

/-- C9 counterexample: a registration whose confirmation send fails raises
an error that is caught at the router, yet the session state after the
router returns differs from the state before the message — the transition
was not rolled back. -/
theorem C9_counterexample :
    (handle_client_messageE failOn1 initState 1 (some (.register false (some "Red") 7))).2.2
      = true ∧
    (handle_client_messageE failOn1 initState 1 (some (.register false (some "Red") 7))).1
      ≠ initState := by
  constructor
  · decide
  · decide

/-- C9 amended: malformed JSON and unknown message types are discarded with
no state change, no reply and no fault, and a fault raised during handling
is caught at the router boundary (the router returns normally, keeping the
connection open); but state mutations applied before the fault persist: a
Buzzer registration whose confirmation send fails leaves the new record
registered. -/
theorem C9_router_boundary (fail : Nat → Bool) (s : ServerState) (ws : Nat) :
    handle_client_messageE fail s ws none = (s, [], false) ∧
    handle_client_messageE fail s ws (some .unknown) = (s, [], false) ∧
    (∀ tn now, fail ws = true → tn ∉ existingTeams s →
      handle_client_messageE fail s ws (some (.register false (some tn) now)) =
        ({ s with clients := updList s.clients ws (.buzzer tn false none now) }, [], true)) := by
  refine ⟨rfl, rfl, ?_⟩
  intro tn now hf hnot
  unfold handle_client_messageE register_clientE send_state_updateE
  simp only [Bool.false_eq_true, if_false, Option.getD_some, hnot]
  rw [lookup_updList_self]
  simp [hf]

/-- Witness for the amended C9: a malformed message is a no-op, and a
failing registration send leaves the committed record with the fault
caught. -/
theorem C9_router_boundary_witness :
    handle_client_messageE failOn1 demoS 1 none = (demoS, [], false) ∧
    failOn1 1 = true ∧ "Green" ∉ existingTeams demoS ∧
    handle_client_messageE failOn1 demoS 1 (some (.register false (some "Green") 7)) =
      ({ demoS with clients := updList demoS.clients 1 (.buzzer "Green" false none 7) },
       [], true) :=
  ⟨(C9_router_boundary failOn1 demoS 1).1, by decide, by decide,
   (C9_router_boundary failOn1 demoS 1).2.2 "Green" 7 (by decide) (by decide)⟩

/-! ### Re-registration behaviour (C10) -/

/-- C10 counterexample: a registered Buzzer that sends a second register
message under its own current team name is rejected with duplicate_name
and nothing is overwritten. -/
theorem C10_counterexample :
    (List.lookup 1 (runEvents initState [Event.register 1 false (some "Red") 0]).clients).isSome
      = true ∧
    register_client (runEvents initState [Event.register 1 false (some "Red") 0]) 1 false
        (some "Red") 5 =
      (runEvents initState [Event.register 1 false (some "Red") 0],
       [(1, .registration_rejected "duplicate_name" (dupMsg "Red"))]) := by
  constructor
  · decide
  · decide

/-- C10 amended: a second register message from a registered connection
overwrites the record — as an admin registration unconditionally, as a
buzzer registration whenever the requested name is not currently held (the
admin set, hence admin authority, and the buzz log are untouched, so an
Admin re-registered as a Buzzer can still unlock) — but a buzzer
registration under a currently-held team name (including the caller's own)
is rejected with duplicate_name and changes nothing. -/
theorem C10_reregister (s : ServerState) (ws now : Nat) (r : ClientInfo) (tn : String)
    (_hreg : List.lookup ws s.clients = some r) :
    List.lookup ws (register_client s ws true none now).1.clients = some (.admin now) ∧
    (tn ∉ existingTeams s →
      List.lookup ws (register_client s ws false (some tn) now).1.clients =
        some (.buzzer tn false none now) ∧
      (register_client s ws false (some tn) now).1.admin_clients = s.admin_clients ∧
      (register_client s ws false (some tn) now).1.buzz_order = s.buzz_order ∧
      (ws ∈ s.admin_clients →
        (handle_admin_command (register_client s ws false (some tn) now).1 ws
          (some "unlock")).1.buzzers_locked = false)) ∧
    (tn ∈ existingTeams s →
      register_client s ws false (some tn) now =
        (s, [(ws, .registration_rejected "duplicate_name" (dupMsg tn))])) := by
  refine ⟨?_, ?_, ?_⟩
  · unfold register_client
    simp only [if_true]
    exact lookup_updList_self s.clients ws (.admin now)
  · intro hnot
    unfold register_client
    simp only [Bool.false_eq_true, if_false, Option.getD_some, hnot]
    refine ⟨lookup_updList_self s.clients ws (.buzzer tn false none now), trivial, trivial, ?_⟩
    intro hadm
    unfold handle_admin_command
    simp [hadm]
  · intro hdup
    unfold register_client
    simp [hdup]

/-- Witness for the amended C10: in the demo state, connection 1 (buzzer
"Red") can re-register as admin or as "Green", is refused "Blue", and
admin connection 0 re-registered as a buzzer can still unlock. -/
theorem C10_reregister_witness :
    List.lookup 1 (register_client demoS 1 true none 7).1.clients = some (.admin 7) ∧
    List.lookup 1 (register_client demoS 1 false (some "Green") 7).1.clients =
      some (.buzzer "Green" false none 7) ∧
    register_client demoS 1 false (some "Blue") 7 =
      (demoS, [(1, .registration_rejected "duplicate_name" (dupMsg "Blue"))]) ∧
    (handle_admin_command (register_client demoS 0 false (some "Green") 7).1 0
      (some "unlock")).1.buzzers_locked = false :=
  ⟨(C10_reregister demoS 1 7 (.buzzer "Red" false none 1) "Green" (by decide)).1,
   ((C10_reregister demoS 1 7 (.buzzer "Red" false none 1) "Green" (by decide)).2.1
      (by decide)).1,
   (C10_reregister demoS 1 7 (.buzzer "Red" false none 1) "Blue" (by decide)).2.2 (by decide),
   ((C10_reregister demoS 0 7 (.admin 0) "Green" (by decide)).2.1 (by decide)).2.2.2
      (by decide)⟩

end Buzzer
